import Mathlib

/- Verification development for the FlexiFit backend (backend/main.py).
   Pure string/JSON helpers and the request pipelines are embedded as
   executable Lean functions; generative-model calls are inputs (oracles). -/

set_option maxRecDepth 4000

/-- Characters considered whitespace by Python's str.strip/str.split and
regex \s for str patterns. -/
def isPySpace (c : Char) : Bool :=
  decide (c.toNat = 32 ∨ (9 ≤ c.toNat ∧ c.toNat ≤ 13) ∨ (28 ≤ c.toNat ∧ c.toNat ≤ 31) ∨
    c.toNat = 0x85 ∨ c.toNat = 0xa0 ∨ c.toNat = 0x1680 ∨
    (0x2000 ≤ c.toNat ∧ c.toNat ≤ 0x200a) ∨ c.toNat = 0x2028 ∨ c.toNat = 0x2029 ∨
    c.toNat = 0x202f ∨ c.toNat = 0x205f ∨ c.toNat = 0x3000)

/-- ASCII letter test, mirroring the regex class [A-Za-z]. -/
def isAzLetter (c : Char) : Bool :=
  decide ((65 ≤ c.toNat ∧ c.toNat ≤ 90) ∨ (97 ≤ c.toNat ∧ c.toNat ≤ 122))

/-- Remove trailing characters satisfying p (Python str.rstrip). -/
def dropTrail (p : Char → Bool) (l : List Char) : List Char :=
  (l.reverse.dropWhile p).reverse

/-- Python str.strip on a character list. -/
def pyStripL (l : List Char) : List Char :=
  dropTrail isPySpace (l.dropWhile isPySpace)

/-- Python str.strip on a string. -/
def pyStripS (s : String) : String := ⟨pyStripL s.data⟩

/-- Python str.lower (ASCII case folding, as used on ASCII data here). -/
def pyLowerS (s : String) : String := ⟨s.data.map Char.toLower⟩

/-- Worker for whitespace splitting (Python str.split with no argument):
the accumulator holds the current word reversed. -/
def pySplitGo : List Char → List Char → List (List Char)
  | [], w => if w = [] then [] else [w.reverse]
  | c :: t, w =>
    if isPySpace c then
      if w = [] then pySplitGo t [] else w.reverse :: pySplitGo t []
    else pySplitGo t (c :: w)

/-- Python str.split() — split on whitespace runs, no empty tokens. -/
def pySplit (l : List Char) : List (List Char) := pySplitGo l []

/-- Line-boundary characters recognized by Python str.splitlines. -/
def isLineBreak (c : Char) : Bool :=
  decide (c.toNat = 10 ∨ c.toNat = 13 ∨ c.toNat = 11 ∨ c.toNat = 12 ∨
    c.toNat = 28 ∨ c.toNat = 29 ∨ c.toNat = 30 ∨ c.toNat = 0x85 ∨
    c.toNat = 0x2028 ∨ c.toNat = 0x2029)

/-- Worker for Python str.splitlines ('\r\n' counts as one boundary,
no trailing empty line for a trailing terminator). -/
def splitlinesGo : List Char → List Char → List (List Char)
  | [], w => if w = [] then [] else [w.reverse]
  | '\r' :: '\n' :: t, w => w.reverse :: splitlinesGo t []
  | c :: t, w =>
    if isLineBreak c then w.reverse :: splitlinesGo t []
    else splitlinesGo t (c :: w)

/-- Python str.splitlines. -/
def pySplitlines (l : List Char) : List (List Char) := splitlinesGo l []

/-- Worker for Python s.split("\n") — keeps empty pieces. -/
def splitNLGo : List Char → List Char → List (List Char)
  | [], w => [w.reverse]
  | c :: t, w =>
    if c = '\n' then w.reverse :: splitNLGo t [] else splitNLGo t (c :: w)

/-- Python s.split("\n"). -/
def splitNL (l : List Char) : List (List Char) := splitNLGo l []

/-- Case-insensitive literal match at the head of the input; returns the
remainder on success. -/
def ciMatch : List Char → List Char → Option (List Char)
  | [], s => some s
  | _ :: _, [] => none
  | p :: pt, c :: ct => if p.toLower = c.toLower then ciMatch pt ct else none

/-- Find the leftmost case-insensitive occurrence of pat, splitting the
input into the part before it and the part after it. -/
def splitFirstCI (pat : List Char) (s : List Char) : Option (List Char × List Char) :=
  match ciMatch pat s with
  | some r => some ([], r)
  | none =>
    match s with
    | [] => none
    | c :: t =>
      match splitFirstCI pat t with
      | some (b, r) => some (c :: b, r)
      | none => none

/-- The opening deal tag literal. -/
def dealOpen : List Char := "<DEAL>".data

/-- The closing deal tag literal. -/
def dealClose : List Char := "</DEAL>".data

/-- Locate the first match of the regex <DEAL>(.*?)</DEAL> (case-insensitive,
dotall): text before the match, the group, and the text after the match. -/
def findDealTag (s : List Char) : Option (List Char × List Char × List Char) :=
  match splitFirstCI dealOpen s with
  | none => none
  | some (b, rest) =>
    match splitFirstCI dealClose rest with
    | none => none
    | some (inner, after) => some (b, inner, after)

/-- Fuel-indexed worker removing every deal-tag match (re.sub with empty
replacement). -/
def removeTagsF : Nat → List Char → List Char
  | 0, s => s
  | f + 1, s =>
    match findDealTag s with
    | none => s
    | some (b, _, a) => b ++ removeTagsF f a

/-- Remove every deal-tag match from the text. -/
def removeDealTags (s : List Char) : List Char := removeTagsF s.length s

/-- Keep non-blank lines, right-strip each, and rejoin with newlines
(the blank-line collapse in _extract_deal_meta), then strip. -/
def collapseBlankLines (l : List Char) : List Char :=
  pyStripL (List.intercalate [Char.ofNat 10]
    ((pySplitlines l).filterMap fun line =>
      if pyStripL line = [] then none else some (dropTrail isPySpace line)))

/-- Embedding of _extract_deal_meta: strip, find the deal tag, return the
cleaned visible text and the optional trimmed label. -/
def extractDealMeta (text : String) : String × Option String :=
  let raw := pyStripL text.data
  if raw = [] then ("", none)
  else
    match findDealTag raw with
    | none => (⟨raw⟩, none)
    | some (_, inner, _) =>
      let label := pyStripL inner
      let cleaned := collapseBlankLines (pyStripL (removeDealTags raw))
      (⟨cleaned⟩, if label = [] then none else some ⟨label⟩)

/-- The double-quote character. -/
def chQuote : Char := Char.ofNat 34

/-- The backslash character. -/
def chBackslash : Char := Char.ofNat 92

/-- The single-quote character, as a one-character string. -/
def sglq : String := ⟨[Char.ofNat 39]⟩

/-- The opening-brace character. -/
def chLBrace : Char := Char.ofNat 123

/-- The closing-brace character. -/
def chRBrace : Char := Char.ofNat 125

/-- The opening brace, as a one-character string. -/
def lbraceS : String := ⟨[chLBrace]⟩

/-- The closing brace, as a one-character string. -/
def rbraceS : String := ⟨[chRBrace]⟩

/-- A parsed JSON number as an exact fraction (denominator a power of ten,
never zero); stands for the Python int/float json.loads would produce. -/
structure PyNum where
  num : Int
  den : Nat
  deriving Repr, DecidableEq

mutual

/-- JSON values as produced by Python's json.loads. -/
inductive JVal where
  | jnull
  | jbool (b : Bool)
  | jnum (x : PyNum)
  | jstr (s : String)
  | jarr (items : JArr)
  | jobj (fields : JObj)

/-- A JSON array body. -/
inductive JArr where
  | nil
  | cons (v : JVal) (t : JArr)

/-- A JSON object body: ordered key/value pairs. -/
inductive JObj where
  | nil
  | cons (k : String) (v : JVal) (t : JObj)

end

/-- The members of a JSON array as a list. -/
def JArr.toList : JArr → List JVal
  | JArr.nil => []
  | JArr.cons v t => v :: t.toList

/-- Build a JSON array body from a list. -/
def jarrOfList (l : List JVal) : JArr := l.foldr JArr.cons JArr.nil

/-- The members of a JSON object as an association list. -/
def JObj.toList : JObj → List (String × JVal)
  | JObj.nil => []
  | JObj.cons k v t => (k, v) :: t.toList

/-- Build a JSON object body from an association list. -/
def jobjOfList (l : List (String × JVal)) : JObj :=
  l.foldr (fun p t => JObj.cons p.1 p.2 t) JObj.nil

/-- JSON inter-token whitespace. -/
def isJsonWs (c : Char) : Bool :=
  decide (c.toNat = 32 ∨ c.toNat = 9 ∨ c.toNat = 10 ∨ c.toNat = 13)

/-- Skip JSON whitespace. -/
def skipWs (l : List Char) : List Char := l.dropWhile isJsonWs

/-- Consume an exact literal at the head of the input. -/
def dropExact : List Char → List Char → Option (List Char)
  | [], s => some s
  | _ :: _, [] => none
  | p :: pt, c :: ct => if p = c then dropExact pt ct else none

/-- Value of a hexadecimal digit. -/
def hexDigitVal (c : Char) : Option Nat :=
  if 48 ≤ c.toNat ∧ c.toNat ≤ 57 then some (c.toNat - 48)
  else if 97 ≤ c.toNat ∧ c.toNat ≤ 102 then some (c.toNat - 87)
  else if 65 ≤ c.toNat ∧ c.toNat ≤ 70 then some (c.toNat - 55)
  else none

/-- Parse the body of a JSON string (after the opening quote); rejects raw
control characters as Python's strict json does. -/
def parseStrBody : Nat → List Char → List Char → Option (String × List Char)
  | 0, _, _ => none
  | _ + 1, [], _ => none
  | f + 1, c :: t, acc =>
    if c = chQuote then some (⟨acc.reverse⟩, t)
    else if c = chBackslash then
      match t with
      | [] => none
      | e :: t2 =>
        if e = chQuote then parseStrBody f t2 (chQuote :: acc)
        else if e = chBackslash then parseStrBody f t2 (chBackslash :: acc)
        else if e = '/' then parseStrBody f t2 ('/' :: acc)
        else if e = 'b' then parseStrBody f t2 (Char.ofNat 8 :: acc)
        else if e = 'f' then parseStrBody f t2 (Char.ofNat 12 :: acc)
        else if e = 'n' then parseStrBody f t2 (Char.ofNat 10 :: acc)
        else if e = 'r' then parseStrBody f t2 (Char.ofNat 13 :: acc)
        else if e = 't' then parseStrBody f t2 (Char.ofNat 9 :: acc)
        else if e = 'u' then
          match t2 with
          | h1 :: h2 :: h3 :: h4 :: t3 =>
            match hexDigitVal h1, hexDigitVal h2, hexDigitVal h3, hexDigitVal h4 with
            | some a, some b, some c2, some d =>
              parseStrBody f t3 (Char.ofNat (((a * 16 + b) * 16 + c2) * 16 + d) :: acc)
            | _, _, _, _ => none
          | _ => none
        else none
    else if c.toNat < 32 then none
    else parseStrBody f t (c :: acc)

/-- Digits to a natural number. -/
def digitsToNat (l : List Char) : Nat :=
  l.foldl (fun n c => n * 10 + (c.toNat - 48)) 0

/-- Parse an optional JSON fraction part. -/
def parseFrac (cs : List Char) : Option (List Char × List Char) :=
  match cs with
  | '.' :: t =>
    let ds := t.takeWhile Char.isDigit
    if ds = [] then none else some (ds, t.dropWhile Char.isDigit)
  | _ => some ([], cs)

/-- Parse an optional JSON exponent part. -/
def parseExp (cs : List Char) : Option (Int × List Char) :=
  match cs with
  | c :: t =>
    if c = 'e' ∨ c = 'E' then
      let (eneg, t1) :=
        match t with
        | '-' :: u => (true, u)
        | '+' :: u => (false, u)
        | _ => (false, t)
      let ds := t1.takeWhile Char.isDigit
      if ds = [] then none
      else some ((if eneg then -(digitsToNat ds : Int) else (digitsToNat ds : Int)),
                 t1.dropWhile Char.isDigit)
    else some (0, cs)
  | [] => some (0, [])

/-- Parse a JSON number into a rational. -/
def parseNum (cs : List Char) : Option (JVal × List Char) :=
  let (neg, cs1) :=
    match cs with
    | '-' :: t => (true, t)
    | _ => (false, cs)
  let ip := cs1.takeWhile Char.isDigit
  let cs2 := cs1.dropWhile Char.isDigit
  if ip = [] then none
  else if 2 ≤ ip.length ∧ ip.head? = some '0' then none
  else
    match parseFrac cs2 with
    | none => none
    | some (fp, cs3) =>
      match parseExp cs3 with
      | none => none
      | some (ex, cs4) =>
        let n0 : Nat := digitsToNat ip * 10 ^ fp.length + digitsToNat fp
        let d0 : Nat := 10 ^ fp.length
        let n1 : Int := if neg then -(n0 : Int) else (n0 : Int)
        let x : PyNum :=
          if 0 ≤ ex then ⟨n1 * (10 : Int) ^ ex.toNat, d0⟩
          else ⟨n1, d0 * 10 ^ (-ex).toNat⟩
        some (JVal.jnum x, cs4)

/-- Insert a key into an object under construction: an existing key keeps
its position and takes the new value (Python dict semantics). -/
def objInsert : JObj → String → JVal → JObj
  | JObj.nil, k, v => JObj.cons k v JObj.nil
  | JObj.cons k2 v2 t, k, v =>
    if k2 = k then JObj.cons k v t else JObj.cons k2 v2 (objInsert t k v)

mutual

/-- Parse one JSON value (fuel-indexed). -/
def parseVal : Nat → List Char → Option (JVal × List Char)
  | 0, _ => none
  | f + 1, cs =>
    match skipWs cs with
    | [] => none
    | c :: rest =>
      if c = chLBrace then parseObjBody f rest JObj.nil
      else if c = Char.ofNat 91 then parseArrBody f rest []
      else if c = chQuote then
        match parseStrBody f rest [] with
        | some (s, r) => some (JVal.jstr s, r)
        | none => none
      else
        match dropExact "true".data (c :: rest) with
        | some r => some (JVal.jbool true, r)
        | none =>
          match dropExact "false".data (c :: rest) with
          | some r => some (JVal.jbool false, r)
          | none =>
            match dropExact "null".data (c :: rest) with
            | some r => some (JVal.jnull, r)
            | none => parseNum (c :: rest)

/-- Parse the members of a JSON array after the opening bracket. -/
def parseArrBody : Nat → List Char → List JVal → Option (JVal × List Char)
  | 0, _, _ => none
  | f + 1, cs, acc =>
    match skipWs cs with
    | [] => none
    | c :: rest =>
      if c = Char.ofNat 93 && acc.isEmpty then some (JVal.jarr JArr.nil, rest)
      else
        match parseVal f (c :: rest) with
        | none => none
        | some (v, r1) =>
          match skipWs r1 with
          | [] => none
          | c2 :: r2 =>
            if c2 = ',' then parseArrBody f r2 (acc ++ [v])
            else if c2 = Char.ofNat 93 then some (JVal.jarr (jarrOfList (acc ++ [v])), r2)
            else none

/-- Parse the members of a JSON object after the opening brace. -/
def parseObjBody : Nat → List Char → JObj → Option (JVal × List Char)
  | 0, _, _ => none
  | f + 1, cs, acc =>
    match skipWs cs with
    | [] => none
    | c :: rest =>
      if (c = chRBrace : Bool) && (acc matches JObj.nil) then some (JVal.jobj JObj.nil, rest)
      else if c = chQuote then
        match parseStrBody f rest [] with
        | none => none
        | some (k, r1) =>
          match skipWs r1 with
          | ':' :: r2 =>
            match parseVal f r2 with
            | none => none
            | some (v, r3) =>
              match skipWs r3 with
              | [] => none
              | c2 :: r4 =>
                if c2 = ',' then parseObjBody f r4 (objInsert acc k v)
                else if c2 = chRBrace then some (JVal.jobj (objInsert acc k v), r4)
                else none
          | _ => none
      else none

end

/-- Python json.loads: parse the whole input as one JSON value, allowing
surrounding whitespace only. -/
def pyJsonLoads (s : String) : Option JVal :=
  match parseVal (2 * s.data.length + 4) s.data with
  | some (v, rest) => if skipWs rest = [] then some v else none
  | none => none

/-- The first-brace-to-last-brace slice used before json.loads to tolerate
prose around a JSON object (applied to already-stripped text). -/
def sliceBraces (s : String) : String :=
  let l := s.data
  match l.findIdx? (fun c => c = chLBrace), l.reverse.findIdx? (fun c => c = chRBrace) with
  | some i, some jr =>
    let j := l.length - 1 - jr
    if i < j then ⟨(l.take (j + 1)).drop i⟩ else ⟨l⟩
  | _, _ => ⟨l⟩

/-- Python round-half-to-even on the exact value n/d, as round() does on
floats (integer arithmetic only: the floor is Int.fdiv, and the fractional
part 2*(n - floor*d) is compared with d). -/
def pyRound (x : PyNum) : Int :=
  let f := Int.fdiv x.num (x.den : Int)
  let r2 := 2 * (x.num - f * (x.den : Int))
  if r2 < (x.den : Int) then f
  else if (x.den : Int) < r2 then f + 1
  else if f % 2 = 0 then f else f + 1

/-- Python int() truncation toward zero on the exact value n/d. -/
def pyTruncInt (x : PyNum) : Int := Int.tdiv x.num (x.den : Int)

/-- Decimal digits of a fraction r/d (fuel-bounded). -/
def fracDigits : Nat → Nat → Nat → List Char
  | 0, _, _ => []
  | f + 1, r, d =>
    if r = 0 then []
    else Char.ofNat (48 + r * 10 / d) :: fracDigits f (r * 10 % d) d

/-- Render a parsed JSON number the way Python str() renders the matching
int/float. -/
def pyNumToStr (x : PyNum) : String :=
  if x.num.natAbs % x.den = 0 then toString (Int.tdiv x.num (x.den : Int))
  else
    (if x.num < 0 then "-" else "") ++ toString (x.num.natAbs / x.den) ++ "." ++
      ⟨fracDigits 30 (x.num.natAbs % x.den) x.den⟩

mutual

/-- Python str() of a JSON value. -/
def jvalToPyStr : JVal → String
  | JVal.jnull => "None"
  | JVal.jbool true => "True"
  | JVal.jbool false => "False"
  | JVal.jnum x => pyNumToStr x
  | JVal.jstr s => s
  | JVal.jarr items => "[" ++ jarrBodyStr items ++ "]"
  | JVal.jobj fields => lbraceS ++ jobjBodyStr fields ++ rbraceS

/-- Python repr() of a JSON value (strings quoted), as inside containers. -/
def jvalReprStr : JVal → String
  | JVal.jnull => "None"
  | JVal.jbool true => "True"
  | JVal.jbool false => "False"
  | JVal.jnum x => pyNumToStr x
  | JVal.jstr s => sglq ++ s ++ sglq
  | JVal.jarr items => "[" ++ jarrBodyStr items ++ "]"
  | JVal.jobj fields => lbraceS ++ jobjBodyStr fields ++ rbraceS

/-- Comma-separated repr of array members. -/
def jarrBodyStr : JArr → String
  | JArr.nil => ""
  | JArr.cons v JArr.nil => jvalReprStr v
  | JArr.cons v (JArr.cons v2 t) => jvalReprStr v ++ ", " ++ jarrBodyStr (JArr.cons v2 t)

/-- Comma-separated repr of object members. -/
def jobjBodyStr : JObj → String
  | JObj.nil => ""
  | JObj.cons k v JObj.nil => sglq ++ k ++ sglq ++ ": " ++ jvalReprStr v
  | JObj.cons k v (JObj.cons k2 v2 t) =>
    sglq ++ k ++ sglq ++ ": " ++ jvalReprStr v ++ ", " ++ jobjBodyStr (JObj.cons k2 v2 t)

end

/-- Python dict.get on a parsed JSON object. -/
def jLookup (fields : JObj) (k : String) : Option JVal :=
  (fields.toList.find? (fun p => p.1 == k)).map Prod.snd

/-- Python dict item assignment. -/
def jUpdate (fields : JObj) (k : String) (v : JVal) : JObj :=
  objInsert fields k v

/-- Python truthiness of a JSON value. -/
def pyTruthy : JVal → Bool
  | JVal.jnull => false
  | JVal.jbool b => b
  | JVal.jnum x => decide (x.num ≠ 0)
  | JVal.jstr s => decide (s ≠ "")
  | JVal.jarr JArr.nil => false
  | JVal.jarr (JArr.cons _ _) => true
  | JVal.jobj JObj.nil => false
  | JVal.jobj (JObj.cons _ _ _) => true

/-- Python str(x or "") for an optional JSON value x. -/
def pyOrEmptyStr (v : Option JVal) : String :=
  match v with
  | none => ""
  | some v => if pyTruthy v then jvalToPyStr v else ""

/-- The Indonesian stopword list used by the language heuristic. -/
def idStopwords : List String :=
  ["yang", "untuk", "dan", "dari", "dengan", "kamu", "anda", "ayo", "hari", "ini",
   "jangan", "bisa", "saja", "lebih", "mulai", "waktu", "ambil", "buku", "bukumu",
   "baca", "satu", "halaman", "tetap", "semangat", "karena", "kalau", "banget"]

/-- One character step of re.sub(r"[^A-Za-z\s]", " ", text).lower(): letters
are lowered, whitespace kept, everything else becomes a space. -/
def cleanChar (c : Char) : Char :=
  if isAzLetter c then c.toLower else if isPySpace c then c else ' '

/-- The tokens _looks_indonesian counts. -/
def idTokens (s : String) : List (List Char) := pySplit (s.data.map cleanChar)

/-- Embedding of _looks_indonesian: at least two stopword hits, or one hit
making up at least 20 percent of the tokens. -/
def looksIndonesian (s : String) : Bool :=
  if s = "" then false
  else
    let tokens := idTokens s
    if tokens = [] then false
    else
      let hits := tokens.countP (fun t => idStopwords.contains (⟨t⟩ : String))
      decide (2 ≤ hits) || (decide (1 ≤ hits) && decide (max 1 tokens.length ≤ 5 * hits))

/-- Embedding of _normalize_language: strip/lower/underscore-to-dash, take
the segment before the first dash, require 2-3 ASCII lowercase letters. -/
def normalizeLanguage (lang : Option String) : String :=
  match lang with
  | none => "en"
  | some l =>
    if l = "" then "en"
    else
      let raw := (pyLowerS (pyStripS l)).data.map (fun c => if c = '_' then '-' else c)
      if raw = [] then "en"
      else
        let primary := raw.takeWhile (fun c => c ≠ '-')
        if 2 ≤ primary.length ∧ primary.length ≤ 3 ∧
            primary.all (fun c => decide (97 ≤ c.toNat ∧ c.toNat ≤ 122)) then
          (⟨primary⟩ : String)
        else "en"

/-- Components of the fixed micro-habit regexes: a literal, an optional
character, a run of whitespace, a word boundary. -/
inductive HabitPat where
  | lit (cs : List Char)
  | optc (c : Char)
  | wsStar
  | wb

/-- Regex word characters. -/
def isWordChar (c : Char) : Bool := c.isAlphanum || c = '_'

/-- A word boundary holds between two positions iff exactly one side is a
word character (ends of input count as non-word). -/
def atBoundary (prev : Option Char) (next : Option Char) : Bool :=
  (match prev with
   | some c => isWordChar c
   | none => false) !=
  (match next with
   | some c => isWordChar c
   | none => false)

/-- Fuel-indexed matcher for a pattern sequence at the current position;
tries all alternative consumptions, so it decides match existence. -/
def matchPatsF : Nat → Option Char → List HabitPat → List Char → Bool
  | 0, _, _, _ => false
  | f + 1, prev, pats, s =>
    match pats with
    | [] => true
    | HabitPat.wb :: rest => atBoundary prev s.head? && matchPatsF f prev rest s
    | HabitPat.lit cs :: rest =>
      match dropExact cs s with
      | none => false
      | some s2 =>
        matchPatsF f
          (match cs.getLast? with
           | some c => some c
           | none => prev) rest s2
    | HabitPat.optc c :: rest =>
      (match s with
       | c2 :: t => if c2 = c then matchPatsF f (some c) rest t else false
       | [] => false)
      || matchPatsF f prev rest s
    | HabitPat.wsStar :: rest =>
      matchPatsF f prev rest s ||
      (match s with
       | c :: t =>
         if isPySpace c then matchPatsF f (some c) (HabitPat.wsStar :: rest) t else false
       | [] => false)

/-- Match a pattern sequence at the current position. -/
def matchPats (prev : Option Char) (pats : List HabitPat) (s : List Char) : Bool :=
  matchPatsF (pats.length + s.length + 1) prev pats s

/-- re.search: does the pattern match at some position of the input? -/
def searchPats (pats : List HabitPat) : Option Char → List Char → Bool
  | prev, s =>
    matchPats prev pats s ||
      match s with
      | [] => false
      | c :: t => searchPats pats (some c) t

/-- re.search from the start of the input. -/
def reSearch (pats : List HabitPat) (s : List Char) : Bool := searchPats pats none s

/-- The fixed micro-habit pattern list of _estimate_micro_habits_offered. -/
def habitPatterns : List (List HabitPat) :=
  [[HabitPat.wb, HabitPat.lit "how about".data, HabitPat.wb],
   [HabitPat.wb, HabitPat.lit "let".data, HabitPat.optc (Char.ofNat 39),
    HabitPat.lit "s".data, HabitPat.wb],
   [HabitPat.wb, HabitPat.lit "commit".data, HabitPat.wb],
   [HabitPat.wb, HabitPat.lit "just".data, HabitPat.wb],
   [HabitPat.wb, HabitPat.lit "2".data, HabitPat.wsStar, HabitPat.optc '-',
    HabitPat.wsStar, HabitPat.lit "minute".data, HabitPat.wb],
   [HabitPat.wb, HabitPat.lit "5".data, HabitPat.wsStar, HabitPat.optc '-',
    HabitPat.wsStar, HabitPat.lit "minute".data, HabitPat.wb],
   [HabitPat.wb, HabitPat.lit "micro".data, HabitPat.wsStar, HabitPat.optc '-',
    HabitPat.wsStar, HabitPat.lit "habit".data, HabitPat.wb],
   [HabitPat.wb, HabitPat.lit "tiny".data, HabitPat.wb]]

/-- A chat history message. -/
structure ChatMessage where
  role : String
  text : String
  deriving Repr, DecidableEq

/-- Does _estimate_micro_habits_offered count this message: the role must be
exactly "model" or "assistant", and the lowercased text must match one of
the fixed patterns. -/
def countsMsg (m : ChatMessage) : Bool :=
  decide (m.role = "model" ∨ m.role = "assistant") &&
    habitPatterns.any (fun p => reSearch p (pyLowerS m.text).data)

/-- Embedding of _estimate_micro_habits_offered. -/
def estimateMicroHabits (history : List ChatMessage) : Nat :=
  history.countP countsMsg

/-- Speaker classification of _history_to_transcript: strip and lowercase
the role, accept model/assistant/ai/bot as the coach and user/human as the
user, drop anything else. -/
def transcriptSpeaker (role : String) : Option String :=
  let r := pyLowerS (pyStripS role)
  if r = "model" ∨ r = "assistant" ∨ r = "ai" ∨ r = "bot" then some "FLEXIFIT"
  else if r = "user" ∨ r = "human" then some "USER"
  else none

/-- The last n entries of a list (Python items[-n:]). -/
def lastN (n : Nat) (l : List α) : List α := l.drop (l.length - n)

/-- One transcript line of _history_to_transcript (blank text is dropped). -/
def transcriptLine (m : ChatMessage) : Option String :=
  let text := pyStripS m.text
  if text = "" then none
  else (transcriptSpeaker m.role).map (fun sp => sp ++ ": " ++ text)

/-- Embedding of _history_to_transcript over the last 12 messages. -/
def historyToTranscript (items : List ChatMessage) : String :=
  String.intercalate "\n" ((lastN 12 items).filterMap transcriptLine)

/-- Python l.lstrip("-"). -/
def lstripDashes (l : List Char) : List Char := l.dropWhile (fun c => c = '-')

/-- The list branch of _coerce_insights_bullets: stringify and strip the
items, drop blank ones, and emit dash bullets. -/
def coerceListBranch (items : List JVal) : String :=
  let strs := (items.map (fun v => pyStripL (jvalToPyStr v).data)).filter (fun l => l ≠ [])
  String.intercalate "\n"
    (strs.map (fun i => "- " ++ (⟨pyStripL (lstripDashes i)⟩ : String)))

/-- The line-normalization branch of _coerce_insights_bullets. -/
def bulletLines (text : List Char) : String :=
  let lines := ((splitNL text).map pyStripL).filter (fun l => l ≠ [])
  if lines = [] then ""
  else
    String.intercalate "\n" (lines.map (fun line =>
      if line.take 2 = ['-', ' '] then (⟨line⟩ : String)
      else if line.take 2 = ['•', ' '] then "- " ++ (⟨pyStripL (line.drop 2)⟩ : String)
      else "- " ++ (⟨pyStripL (lstripDashes line)⟩ : String)))

/-- Embedding of _coerce_insights_bullets on a JSON value. -/
def coerceInsights (value : Option JVal) : String :=
  match value with
  | none => ""
  | some JVal.jnull => ""
  | some (JVal.jarr items) => coerceListBranch items.toList
  | some v =>
    let text := pyStripL (jvalToPyStr v).data
    if text = [] then ""
    else if text.head? = some (Char.ofNat 91) ∧ text.getLast? = some (Char.ofNat 93) then
      match pyJsonLoads (⟨text⟩ : String) with
      | some (JVal.jarr items) => coerceListBranch items.toList
      | _ => bulletLines text
    else bulletLines text

/-- A successful empathy-judge result: the dict returned by
call_gemini_empathy_judge. -/
structure Judgment where
  empathy : Int
  rationale : String
  deriving Repr, DecidableEq

/-- The rationale field of the judge payload: missing or null becomes the
empty string, anything else is stringified and stripped. -/
def judgeRationaleText (fields : JObj) : String :=
  match jLookup fields "rationale" with
  | none => ""
  | some JVal.jnull => ""
  | some v => pyStripS (jvalToPyStr v)

/-- Coercion of the judge payload in call_gemini_empathy_judge: a boolean
empathy becomes 5/1, a number is rounded then clamped into [1,5], anything
else (missing, null, string, container) is an error; a non-object payload
is an error. -/
def empathyFromPayload (v : JVal) : Except String Judgment :=
  match v with
  | JVal.jobj fields =>
    match jLookup fields "empathy" with
    | some (JVal.jbool b) =>
      Except.ok ⟨max 1 (min 5 (pyRound (if b then ⟨5, 1⟩ else ⟨1, 1⟩))), judgeRationaleText fields⟩
    | some (JVal.jnum x) =>
      Except.ok ⟨max 1 (min 5 (pyRound x)), judgeRationaleText fields⟩
    | _ => Except.error "Empathy must be 1..5"
  | _ => Except.error "Empathy evaluation must be a JSON object"

/-- Embedding of call_gemini_empathy_judge after the model reply: strip,
brace-slice, json.loads, then coerce. -/
def empathyJudgeModel (raw : String) : Except String Judgment :=
  match pyJsonLoads (sliceBraces (pyStripS raw)) with
  | none => Except.error "Malformed judge output"
  | some v => empathyFromPayload v

/-- The outcome of the post-generation part of the /chat endpoint, plus
instrumentation counting judge calls and retry-generation calls. -/
structure ChatOutcome where
  response : String
  deal_made : Bool
  deal_label : Option String
  empathy_score : Option Int
  empathy_rationale : Option String
  retry_used : Bool
  initial_empathy_score : Option Int
  judgeAttempts : Nat
  retryAttempts : Nat
  deriving Repr, DecidableEq

/-- The RETRY_ON_LOW_EMPATHY flag check: strip, lowercase, membership in
the literal truthy set. -/
def parseRetryFlag (s : String) : Bool :=
  let v := pyLowerS (pyStripS s)
  decide (v = "1" ∨ v = "true" ∨ v = "yes" ∨ v = "on")

/-- The RETRY_EMPATHY_THRESHOLD clamp into [1,5]. -/
def clampThreshold (t : Int) : Int := max 1 (min 5 t)

/-- Python `str(x or "").strip() or None`. -/
def strippedOrNone (s : String) : Option String :=
  let r := pyStripS s
  if r = "" then none else some r

/-- Embedding of the /chat judge-and-retry block (after a successful
primary generation): judge the cleaned reply, retry at most once when the
flag is on and the score is below the clamped threshold, re-judge the
retry, absorb any failure of judge or retry. The judge and generation
results are oracle inputs; none stands for an exception. -/
def chatJudgePhase (retryFlagEnv : String) (thresholdEnv : Int) (aiReplyRaw : String)
    (judge1 : Option Judgment) (retryGen : Option String) (judge2 : Option Judgment) :
    ChatOutcome :=
  let p := extractDealMeta aiReplyRaw
  let cleaned := p.1
  let dealLabel := p.2
  let dealMade := dealLabel.isSome
  match judge1 with
  | none => ⟨cleaned, dealMade, dealLabel, none, none, false, none, 1, 0⟩
  | some j =>
    let score := j.empathy
    let rationale := strippedOrNone j.rationale
    let enabled := parseRetryFlag retryFlagEnv
    let thr := clampThreshold thresholdEnv
    if enabled ∧ score < thr then
      match retryGen with
      | none => ⟨cleaned, dealMade, dealLabel, some score, rationale, false, some score, 1, 1⟩
      | some retryRaw =>
        match judge2 with
        | none => ⟨cleaned, dealMade, dealLabel, some score, rationale, false, some score, 2, 1⟩
        | some j2 =>
          let p2 := extractDealMeta retryRaw
          ⟨p2.1, if p2.2.isSome then true else dealMade,
           if p2.2.isSome then p2.2 else dealLabel,
           some j2.empathy, strippedOrNone j2.rationale, true, some score, 2, 1⟩
    else ⟨cleaned, dealMade, dealLabel, some score, rationale, false, some score, 1, 0⟩

/-- Possible outcomes of the primary generation call, mirroring the caught
exception classes. -/
inductive GenResult where
  | ok (text : String)
  | timeoutErr
  | deadlineErr
  | authErr
  | otherErr (msg : String)
  deriving Repr, DecidableEq

/-- Python s[:160]. -/
def take160 (s : String) : String := ⟨s.data.take 160⟩

/-- Embedding of call_gemini_negotiator's result handling: empty text is a
500, timeouts are 504, auth failures are 401, anything else is a 500 with
the message truncated to 160 characters. -/
def negotiatorModel (r : GenResult) : Except (Nat × String) String :=
  match r with
  | GenResult.ok t =>
    let t2 := pyStripS t
    if t2 = "" then Except.error (500, "AI processing failed: " ++ take160 "Empty AI response")
    else Except.ok t2
  | GenResult.timeoutErr => Except.error (504, "AI response timeout. Please try again.")
  | GenResult.deadlineErr => Except.error (504, "AI response timeout. Please try again.")
  | GenResult.authErr => Except.error (401, "AI authentication failed. Check API key.")
  | GenResult.otherErr m => Except.error (500, "AI processing failed: " ++ take160 m)

/-- Embedding of the /chat endpoint: validate the trimmed message and goal
first, then run the generation and the judge/retry phase; the second
component counts primary generation attempts. -/
def chatEndpointModel (userMessage currentGoal : String) (gen : GenResult)
    (judge1 : Option Judgment) (retryGen : Option String) (judge2 : Option Judgment)
    (retryFlagEnv : String) (thresholdEnv : Int) :
    Except (Nat × String) ChatOutcome × Nat :=
  if pyStripS userMessage = "" then (Except.error (400, "Message cannot be empty"), 0)
  else if pyStripS currentGoal = "" then (Except.error (400, "Goal must be set"), 0)
  else
    match negotiatorModel gen with
    | Except.error e => (Except.error e, 1)
    | Except.ok reply =>
      (Except.ok (chatJudgePhase retryFlagEnv thresholdEnv reply judge1 retryGen judge2), 1)

/-- The fixed three-line fallback insights text. -/
def fallbackInsights : String :=
  "- Keep the habit tiny today.\n- Pick one micro-step and do it now.\n- Consistency beats intensity."

/-- Replace the insights field by its bullet coercion
(payload["insights"] = _coerce_insights_bullets(payload.get("insights"))). -/
def insightsCoerceUpdate (fields : JObj) : JObj :=
  jUpdate fields "insights" (JVal.jstr (coerceInsights (jLookup fields "insights")))

/-- str(payload.get("insights") or "").strip(). -/
def insightsTextOf (fields : JObj) : String :=
  pyStripS (pyOrEmptyStr (jLookup fields "insights"))

/-- The one-shot English-corrective retry block of
call_gemini_progress_insights: when the requested language is en and the
coerced insights text is non-blank and trips the Indonesian heuristic, one
corrective re-prompt is attempted; its payload replaces the original only
if it is a JSON object whose coerced insights is non-blank and no longer
trips. The second component counts corrective re-prompts. -/
def insightsRetryStep (lang : Option String) (fields1 : JObj) (retryGen : Option String) :
    JObj × Nat :=
  let insightsText := insightsTextOf fields1
  if decide (normalizeLanguage lang = "en") && decide (insightsText ≠ "") &&
      looksIndonesian insightsText then
    match retryGen with
    | none => (fields1, 1)
    | some rtext =>
      match pyJsonLoads (sliceBraces (pyStripS rtext)) with
      | none => (fields1, 1)
      | some (JVal.jobj rfields0) =>
        let rfields1 := insightsCoerceUpdate rfields0
        let rIns := insightsTextOf rfields1
        if decide (rIns ≠ "") && !looksIndonesian rIns then (rfields1, 1) else (fields1, 1)
      | some _ => (fields1, 1)
  else (fields1, 0)

/-- The final fallback guard of call_gemini_progress_insights: blank
insights, or insights that still trip the heuristic on an en request, are
replaced by the fixed fallback text. -/
def insightsFinalGuard (lang : Option String) (fields : JObj) : JObj :=
  let finalInsights := insightsTextOf fields
  if finalInsights = "" then jUpdate fields "insights" (JVal.jstr fallbackInsights)
  else if decide (normalizeLanguage lang = "en") && looksIndonesian finalInsights then
    jUpdate fields "insights" (JVal.jstr fallbackInsights)
  else fields

/-- Embedding of call_gemini_progress_insights after the first model reply:
parse, coerce the insights, run the one-shot English-corrective retry, then
apply the final fallback guard. The model replies are oracle inputs (none
stands for a generation exception); the second component counts corrective
re-prompts. -/
def progressInsightsModel (language : Option String) (firstText : String)
    (retryGen : Option String) : Except String (JObj × Nat) :=
  match pyJsonLoads (sliceBraces (pyStripS firstText)) with
  | none => Except.error "JSON decode error"
  | some (JVal.jobj fields0) =>
    let step := insightsRetryStep language (insightsCoerceUpdate fields0) retryGen
    Except.ok (insightsFinalGuard language step.1, step.2)
  | some _ => Except.error "Progress insights must be a JSON object"

/-- The insights string stored in a returned payload. -/
def insightsValue (fields : JObj) : String :=
  match jLookup fields "insights" with
  | some (JVal.jstr s) => s
  | _ => ""

/-- The whitespace-run collapse re.sub(r"\s+", " ", text) (the flag records
whether the previous character was part of a run). -/
def collapseWSGo : Bool → List Char → List Char
  | _, [] => []
  | prevSp, c :: t =>
    if isPySpace c then
      if prevSp then collapseWSGo true t else ' ' :: collapseWSGo true t
    else c :: collapseWSGo false t

/-- re.sub(r"\s+", " ", text). -/
def collapseWS (l : List Char) : List Char := collapseWSGo false l

/-- Python strip of double quotes. -/
def stripQuotes (l : List Char) : List Char :=
  dropTrail (fun c => c = chQuote) (l.dropWhile (fun c => c = chQuote))

/-- The normalization applied to each weekly-motivation model reply: strip,
collapse whitespace runs, strip, strip quotes, strip. -/
def motivNormalize (t : String) : String :=
  ⟨pyStripL (stripQuotes (pyStripL (collapseWS (pyStripL t.data))))⟩

/-- The fixed weekly-motivation fallback sentence. -/
def motivFallback : String :=
  "Tiny steps count—do the smallest version today and keep the streak alive."

/-- Embedding of call_gemini_weekly_motivation after the first model reply:
normalize, run the one-shot English-corrective rewrite when the requested
language is en and the text trips the Indonesian heuristic, then apply the
empty-text and final language guards. The model replies are oracle inputs
(none stands for a generation exception); the second component counts
corrective re-prompts. -/
def weeklyMotivationModel (language : Option String) (firstText : String)
    (rewriteGen : Option String) : String × Nat :=
  let text := motivNormalize firstText
  let step :=
    if decide (normalizeLanguage language = "en") && looksIndonesian text then
      match rewriteGen with
      | none => (text, 1)
      | some rw =>
        let rewritten := motivNormalize rw
        if decide (rewritten ≠ "") && !looksIndonesian rewritten then (rewritten, 1)
        else (text, 1)
    else (text, 0)
  if step.1 = "" then (motivFallback, step.2)
  else if decide (normalizeLanguage language = "en") && looksIndonesian step.1 then
    (motivFallback, step.2)
  else (step.1, step.2)

/-- Embedding of the /progress completion-rate formula. -/
def completionRate (totalChats : Nat) : ℚ :=
  min 100 (((min totalChats 10 : Nat) : ℚ) / 10 * 100)

/-- The AI-reported micro-habit count the /progress endpoint extracts from
the insights payload: present only when the field is an int/float (Python
bool passes the isinstance test and int() maps it to 1/0; floats are
truncated toward zero). -/
def aiReportedCount (res : Except String (JObj × Nat)) : Option Int :=
  match res with
  | Except.error _ => none
  | Except.ok (fields, _) =>
    match jLookup fields "micro_habits_offered" with
    | some (JVal.jbool b) => some (if b then 1 else 0)
    | some (JVal.jnum x) => some (pyTruncInt x)
    | _ => none

/-- Python `x or 0` on an optional int. -/
def pyOrZero (v : Option Int) : Int :=
  match v with
  | none => 0
  | some n => if n = 0 then 0 else n

/-- The /progress micro_habits_offered blend: the maximum of the heuristic
count and the AI-reported count (0 when the AI call failed or reported no
number). -/
def progressMicroHabits (history : List ChatMessage) (res : Except String (JObj × Nat)) : Int :=
  max (estimateMicroHabits history : Int) (pyOrZero (aiReportedCount res))

/-- Concrete history whose heuristic micro-habit count is 3. -/
def exHistory : List ChatMessage :=
  [⟨"model", "How about a 5-minute walk?"⟩, ⟨"assistant", "Just one page tonight."⟩,
   ⟨"model", "Commit to one tiny step."⟩, ⟨"user", "ok"⟩]

/-- Concrete AI insights payload reporting a count of 1. -/
def exAiPayload : Except String (JObj × Nat) :=
  Except.ok (JObj.cons "micro_habits_offered" (JVal.jnum ⟨1, 1⟩) JObj.nil, 0)

theorem pySplitGo_spaces (ws : List Char) (hws : ∀ c ∈ ws, isPySpace c = true) (w : List Char) :
    pySplitGo ws w = if w = [] then [] else [w.reverse] := by
  induction ws generalizing w with
  | nil => rfl
  | cons c t ih =>
    have hc : isPySpace c = true := hws c (by simp)
    have ht : ∀ x ∈ t, isPySpace x = true := fun x hx => hws x (by simp [hx])
    simp only [pySplitGo, hc, if_true]
    rw [ih ht, if_pos rfl]

theorem pySplitGo_trailing (ws : List Char) (hws : ∀ c ∈ ws, isPySpace c = true) :
    ∀ (l w : List Char), pySplitGo (l ++ ws) w = pySplitGo l w := by
  intro l
  induction l with
  | nil =>
    intro w
    simp only [List.nil_append]
    rw [pySplitGo_spaces ws hws w]
    rfl
  | cons c t ih =>
    intro w
    by_cases hc : isPySpace c = true
    · simp only [List.cons_append, pySplitGo, hc, if_true, List.append_eq, ih]
    · simp only [List.cons_append, pySplitGo, hc, Bool.false_eq_true, if_false,
        List.append_eq, ih]

theorem pySplitGo_leading (ws : List Char) (hws : ∀ c ∈ ws, isPySpace c = true)
    (l : List Char) : pySplitGo (ws ++ l) [] = pySplitGo l [] := by
  induction ws with
  | nil => rfl
  | cons c t ih =>
    have hc : isPySpace c = true := hws c (by simp)
    have ht : ∀ x ∈ t, isPySpace x = true := fun x hx => hws x (by simp [hx])
    simp only [List.cons_append, pySplitGo, hc, if_true, if_pos rfl]
    exact ih ht

theorem cleanChar_of_space (c : Char) (h : isPySpace c = true) : cleanChar c = c := by
  have hp := of_decide_eq_true h
  have hl : isAzLetter c = false := by
    apply decide_eq_false
    omega
  simp [cleanChar, hl, h]

theorem isPySpace_cleanChar (c : Char) (h : isPySpace c = true) :
    isPySpace (cleanChar c) = true := by rw [cleanChar_of_space c h]; exact h

theorem pyStripL_decomp (l : List Char) :
    ∃ a z, l = a ++ pyStripL l ++ z ∧ (∀ c ∈ a, isPySpace c = true) ∧
      (∀ c ∈ z, isPySpace c = true) := by
  refine ⟨l.takeWhile isPySpace,
    ((l.dropWhile isPySpace).reverse.takeWhile isPySpace).reverse, ?_, ?_, ?_⟩
  · conv_lhs => rw [← List.takeWhile_append_dropWhile isPySpace l]
    rw [List.append_assoc]
    congr 1
    conv_lhs => rw [← (l.dropWhile isPySpace).reverse_reverse,
      ← List.takeWhile_append_dropWhile isPySpace (l.dropWhile isPySpace).reverse]
    rw [List.reverse_append]
    rfl
  · intro c hc; exact List.mem_takeWhile_imp hc
  · intro c hc
    rw [List.mem_reverse] at hc
    exact List.mem_takeWhile_imp hc

theorem idTokens_strip (s : String) : idTokens (pyStripS s) = idTokens s := by
  show pySplit ((pyStripL s.data).map cleanChar) = pySplit (s.data.map cleanChar)
  obtain ⟨a, z, hdecomp, ha, hz⟩ := pyStripL_decomp s.data
  conv_rhs => rw [hdecomp]
  rw [List.map_append, List.map_append]
  unfold pySplit
  rw [pySplitGo_trailing (z.map cleanChar)
    (fun c hc => by
      obtain ⟨c0, hc0, rfl⟩ := List.mem_map.mp hc
      exact isPySpace_cleanChar c0 (hz c0 hc0))]
  rw [pySplitGo_leading (a.map cleanChar)
    (fun c hc => by
      obtain ⟨c0, hc0, rfl⟩ := List.mem_map.mp hc
      exact isPySpace_cleanChar c0 (ha c0 hc0))]

theorem looksIndonesian_strip (s : String) : looksIndonesian (pyStripS s) = looksIndonesian s := by
  have ht := idTokens_strip s
  by_cases hs : s = ""
  · subst hs; rfl
  · by_cases hstrip : pyStripS s = ""
    · rw [hstrip]
      have htok : idTokens s = [] := by rw [← ht, hstrip]; rfl
      simp [looksIndonesian, hs, htok]
    · simp [looksIndonesian, hs, hstrip, ht]

theorem claim_C6_deal_extraction :
    extractDealMeta "Great job! <DEAL>do 5 pushups</DEAL>" = ("Great job!", some "do 5 pushups") ∧
    (∀ s : String, findDealTag (pyStripL s.data) = none → extractDealMeta s = (pyStripS s, none)) ∧
    (∀ s : String, ∀ b inner a : List Char, findDealTag (pyStripL s.data) = some (b, inner, a) →
      extractDealMeta s =
        (⟨collapseBlankLines (pyStripL (removeDealTags (pyStripL s.data)))⟩,
         if pyStripL inner = [] then none else some ⟨pyStripL inner⟩)) := by
  refine ⟨by rfl, ?_, ?_⟩
  · intro s h
    by_cases hraw : pyStripL s.data = []
    · simp [extractDealMeta, hraw, pyStripS, hraw]
    · simp [extractDealMeta, hraw, h, pyStripS]
  · intro s b inner a h
    by_cases hraw : pyStripL s.data = []
    · rw [hraw] at h; simp [findDealTag, splitFirstCI, ciMatch, dealOpen] at h
    · simp [extractDealMeta, hraw, h]

theorem claim_C9_completion_rate :
    (∀ n : Nat, completionRate n = min 100 (((min n 10 : Nat) : ℚ) / 10 * 100)) ∧
    (∀ a b : Nat, a ≤ b → completionRate a ≤ completionRate b) ∧
    (∀ n : Nat, 10 ≤ n → completionRate n = 100) ∧
    completionRate 0 = 0 ∧ completionRate 5 = 50 ∧
    completionRate 10 = 100 ∧ completionRate 20 = 100 := by
  refine ⟨fun n => rfl, ?_, ?_, ?_, ?_, ?_, ?_⟩
  · intro a b hab
    unfold completionRate
    gcongr
  · intro n hn
    unfold completionRate
    rw [min_eq_right hn]
    norm_num
  · simp [completionRate]
  · rw [completionRate]; norm_num [min_def]
  · rw [completionRate]; norm_num [min_def]
  · rw [completionRate]; norm_num [min_def]

theorem claim_C7_micro_habit_blend :
    (∀ history res, progressMicroHabits history res =
      max (estimateMicroHabits history : Int) (pyOrZero (aiReportedCount res))) ∧
    (∀ history e, progressMicroHabits history (Except.error e) = (estimateMicroHabits history : Int)) ∧
    estimateMicroHabits exHistory = 3 ∧
    aiReportedCount exAiPayload = some 1 ∧
    progressMicroHabits exHistory exAiPayload = 3 := by
  refine ⟨fun _ _ => rfl, ?_, by rfl, by rfl, by rfl⟩
  intro history e
  simp only [progressMicroHabits, aiReportedCount, pyOrZero]
  exact max_eq_left (Int.natCast_nonneg _)

theorem claim_C8_error_mapping :
    (∀ msg goal gen j1 rg j2 flag thr, pyStripS msg = "" →
      chatEndpointModel msg goal gen j1 rg j2 flag thr =
        (Except.error (400, "Message cannot be empty"), 0)) ∧
    (∀ msg goal gen j1 rg j2 flag thr, pyStripS msg ≠ "" → pyStripS goal = "" →
      chatEndpointModel msg goal gen j1 rg j2 flag thr =
        (Except.error (400, "Goal must be set"), 0)) ∧
    (∀ msg goal j1 rg j2 flag thr, pyStripS msg ≠ "" → pyStripS goal ≠ "" →
      (chatEndpointModel msg goal GenResult.timeoutErr j1 rg j2 flag thr).1 =
        Except.error (504, "AI response timeout. Please try again.") ∧
      (chatEndpointModel msg goal GenResult.deadlineErr j1 rg j2 flag thr).1 =
        Except.error (504, "AI response timeout. Please try again.") ∧
      (chatEndpointModel msg goal GenResult.authErr j1 rg j2 flag thr).1 =
        Except.error (401, "AI authentication failed. Check API key.")) ∧
    (∀ msg goal m j1 rg j2 flag thr, pyStripS msg ≠ "" → pyStripS goal ≠ "" →
      (chatEndpointModel msg goal (GenResult.otherErr m) j1 rg j2 flag thr).1 =
        Except.error (500, "AI processing failed: " ++ take160 m) ∧
      (take160 m).length ≤ 160) := by
  refine ⟨?_, ?_, ?_, ?_⟩
  · intro msg goal gen j1 rg j2 flag thr h
    simp [chatEndpointModel, h]
  · intro msg goal gen j1 rg j2 flag thr h1 h2
    simp [chatEndpointModel, h1, h2]
  · intro msg goal j1 rg j2 flag thr h1 h2
    refine ⟨?_, ?_, ?_⟩ <;> simp [chatEndpointModel, h1, h2, negotiatorModel]
  · intro msg goal m j1 rg j2 flag thr h1 h2
    constructor
    · simp [chatEndpointModel, h1, h2, negotiatorModel]
    · exact List.length_take_le _ _

theorem claim_C10_role_asymmetry :
    (∀ m : ChatMessage, countsMsg m = true → m.role = "model" ∨ m.role = "assistant") ∧
    (∀ m : ChatMessage, (m.role = "ai" ∨ m.role = "bot" ∨ m.role = "Model") →
      countsMsg m = false) ∧
    transcriptSpeaker "ai" = some "FLEXIFIT" ∧
    transcriptSpeaker "bot" = some "FLEXIFIT" ∧
    transcriptSpeaker "Model" = some "FLEXIFIT" ∧
    transcriptSpeaker " assistant " = some "FLEXIFIT" ∧
    transcriptSpeaker "human" = some "USER" ∧
    countsMsg ⟨"ai", "Just do it"⟩ = false ∧
    (habitPatterns.any fun p => reSearch p (pyLowerS "Just do it").data) = true ∧
    (∀ history, estimateMicroHabits history =
      estimateMicroHabits
        (history.filter (fun m => decide (m.role = "model" ∨ m.role = "assistant")))) := by
  have hrole : ∀ m : ChatMessage, countsMsg m = true → m.role = "model" ∨ m.role = "assistant" := by
    intro m h
    rw [countsMsg, Bool.and_eq_true] at h
    exact of_decide_eq_true h.1
  refine ⟨hrole, ?_, by rfl, by rfl, by rfl, by rfl, by rfl, by rfl, by rfl, ?_⟩
  · intro m hm
    apply eq_false_of_ne_true
    intro hc
    rcases hrole m hc with h | h <;> rcases hm with h2 | h2 | h2 <;> rw [h2] at h <;> simp at h
  · intro history
    simp only [estimateMicroHabits, List.countP_filter]
    apply List.countP_congr
    intro m _
    cases hc : countsMsg m with
    | true => simp [hrole m hc]
    | false => simp

theorem claim_C1_retry_policy (flag : String) (thr : Int) (reply : String)
    (j : Judgment) (rg : Option String) (j2 : Option Judgment) :
    ((chatJudgePhase flag thr reply (some j) rg j2).retryAttempts = 1 ↔
      (parseRetryFlag flag = true ∧ j.empathy < clampThreshold thr)) ∧
    (parseRetryFlag flag = false →
      (chatJudgePhase flag thr reply (some j) rg j2).retry_used = false ∧
      (chatJudgePhase flag thr reply (some j) rg j2).judgeAttempts = 1 ∧
      (chatJudgePhase flag thr reply (some j) rg j2).retryAttempts = 0) ∧
    (parseRetryFlag flag = true → thr = 3 → j.empathy = 2 →
      (chatJudgePhase flag thr reply (some j) rg j2).retryAttempts = 1) ∧
    (parseRetryFlag flag = true → thr = 3 → j.empathy = 4 →
      (chatJudgePhase flag thr reply (some j) rg j2).retryAttempts = 0) ∧
    (∀ j1 : Option Judgment,
      (chatJudgePhase flag thr reply j1 rg j2).retryAttempts ≤ 1) := by
  have hmain : ∀ (j1 : Judgment),
      (chatJudgePhase flag thr reply (some j1) rg j2).retryAttempts =
        if parseRetryFlag flag = true ∧ j1.empathy < clampThreshold thr then 1 else 0 := by
    intro j1
    by_cases hcond : parseRetryFlag flag = true ∧ j1.empathy < clampThreshold thr
    · obtain ⟨h1, h2⟩ := hcond
      cases rg with
      | none => simp [chatJudgePhase, h1, h2]
      | some rr =>
        cases j2 with
        | none => simp [chatJudgePhase, h1, h2]
        | some jj => simp [chatJudgePhase, h1, h2]
    · rw [if_neg hcond]
      have : ¬((parseRetryFlag flag : Prop) ∧ j1.empathy < clampThreshold thr) := by
        simpa using hcond
      simp [chatJudgePhase, this]
  refine ⟨?_, ?_, ?_, ?_, ?_⟩
  · rw [hmain j]
    by_cases hcond : parseRetryFlag flag = true ∧ j.empathy < clampThreshold thr
    · simp [hcond]
    · simp [hcond]
  · intro hoff
    have hcond : ¬(parseRetryFlag flag = true ∧ j.empathy < clampThreshold thr) := by
      simp [hoff]
    have : ¬((parseRetryFlag flag : Prop) ∧ j.empathy < clampThreshold thr) := by
      simp [hoff]
    refine ⟨by simp [chatJudgePhase, this], by simp [chatJudgePhase, this], ?_⟩
    rw [hmain j, if_neg hcond]
  · intro hon h3 hsc
    rw [hmain j, if_pos ⟨hon, by rw [hsc, h3]; norm_num [clampThreshold]⟩]
  · intro hon h3 hsc
    rw [hmain j, if_neg ?_]
    rintro ⟨-, hlt⟩
    rw [hsc, h3] at hlt
    norm_num [clampThreshold] at hlt
  · intro j1
    cases j1 with
    | none => simp [chatJudgePhase]
    | some jx => rw [hmain jx]; split <;> omega

theorem claim_C2_graceful_degradation :
    (∀ (msg goal t : String) j1 rg j2 flag thr, pyStripS msg ≠ "" → pyStripS goal ≠ "" →
      pyStripS t ≠ "" →
      (chatEndpointModel msg goal (GenResult.ok t) j1 rg j2 flag thr).1 =
        Except.ok (chatJudgePhase flag thr (pyStripS t) j1 rg j2)) ∧
    (∀ flag thr (reply : String) rg j2,
      chatJudgePhase flag thr reply none rg j2 =
        ⟨(extractDealMeta reply).1, (extractDealMeta reply).2.isSome, (extractDealMeta reply).2,
         none, none, false, none, 1, 0⟩) ∧
    (∀ flag thr (reply : String) (j : Judgment) j2,
      (chatJudgePhase flag thr reply (some j) none j2).response = (extractDealMeta reply).1 ∧
      (chatJudgePhase flag thr reply (some j) none j2).retry_used = false ∧
      (chatJudgePhase flag thr reply (some j) none j2).empathy_score = some j.empathy ∧
      (chatJudgePhase flag thr reply (some j) none j2).initial_empathy_score = some j.empathy) ∧
    (∀ flag thr (reply : String) (j : Judgment) rg,
      (chatJudgePhase flag thr reply (some j) rg none).response = (extractDealMeta reply).1 ∧
      (chatJudgePhase flag thr reply (some j) rg none).retry_used = false ∧
      (chatJudgePhase flag thr reply (some j) rg none).empathy_score = some j.empathy ∧
      (chatJudgePhase flag thr reply (some j) rg none).initial_empathy_score = some j.empathy) := by
  refine ⟨?_, ?_, ?_, ?_⟩
  · intro msg goal t j1 rg j2 flag thr h1 h2 h3
    simp [chatEndpointModel, h1, h2, negotiatorModel, h3]
  · intro flag thr reply rg j2
    rfl
  · intro flag thr reply j j2
    by_cases hcond : (parseRetryFlag flag : Prop) ∧ j.empathy < clampThreshold thr
    · simp [chatJudgePhase, hcond]
    · simp [chatJudgePhase, hcond]
  · intro flag thr reply j rg
    by_cases hcond : (parseRetryFlag flag : Prop) ∧ j.empathy < clampThreshold thr
    · cases rg with
      | none => simp [chatJudgePhase, hcond]
      | some rr => simp [chatJudgePhase, hcond]
    · simp [chatJudgePhase, hcond]

theorem claim_C3_retry_invariants (flag : String) (thr : Int) (reply : String)
    (j1 : Option Judgment) (rg : Option String) (j2 : Option Judgment)
    (h : (chatJudgePhase flag thr reply j1 rg j2).retry_used = true) :
    ∃ j jj rr, j1 = some j ∧ rg = some rr ∧ j2 = some jj ∧
      (chatJudgePhase flag thr reply j1 rg j2).empathy_score = some jj.empathy ∧
      (chatJudgePhase flag thr reply j1 rg j2).empathy_rationale = strippedOrNone jj.rationale ∧
      (chatJudgePhase flag thr reply j1 rg j2).initial_empathy_score = some j.empathy ∧
      (chatJudgePhase flag thr reply j1 rg j2).response = (extractDealMeta rr).1 ∧
      (chatJudgePhase flag thr reply j1 rg j2).deal_label =
        (if (extractDealMeta rr).2.isSome then (extractDealMeta rr).2
         else (extractDealMeta reply).2) ∧
      (chatJudgePhase flag thr reply j1 rg j2).deal_made =
        ((extractDealMeta rr).2.isSome || (extractDealMeta reply).2.isSome) := by
  cases j1 with
  | none => simp [chatJudgePhase] at h
  | some j =>
    by_cases hcond : (parseRetryFlag flag : Prop) ∧ j.empathy < clampThreshold thr
    · cases rg with
      | none => simp [chatJudgePhase, hcond] at h
      | some rr =>
        cases j2 with
        | none => simp [chatJudgePhase, hcond] at h
        | some jj =>
          refine ⟨j, jj, rr, rfl, rfl, rfl, ?_, ?_, ?_, ?_, ?_, ?_⟩ <;>
            simp [chatJudgePhase, hcond]
    · simp [chatJudgePhase, hcond] at h

theorem claim_C4_judge_coercion :
    (∀ fields j, empathyFromPayload (JVal.jobj fields) = Except.ok j →
      1 ≤ j.empathy ∧ j.empathy ≤ 5) ∧
    (∀ fields, jLookup fields "empathy" = some (JVal.jbool true) →
      empathyFromPayload (JVal.jobj fields) = Except.ok ⟨5, judgeRationaleText fields⟩) ∧
    (∀ fields, jLookup fields "empathy" = some (JVal.jbool false) →
      empathyFromPayload (JVal.jobj fields) = Except.ok ⟨1, judgeRationaleText fields⟩) ∧
    (∀ fields x, jLookup fields "empathy" = some (JVal.jnum x) →
      empathyFromPayload (JVal.jobj fields) =
        Except.ok ⟨max 1 (min 5 (pyRound x)), judgeRationaleText fields⟩) ∧
    (∀ fields, jLookup fields "empathy" = some (JVal.jnum ⟨7, 1⟩) →
      empathyFromPayload (JVal.jobj fields) = Except.ok ⟨5, judgeRationaleText fields⟩) ∧
    (∀ fields, jLookup fields "empathy" = none →
      empathyFromPayload (JVal.jobj fields) = Except.error "Empathy must be 1..5") ∧
    (∀ fields s, jLookup fields "empathy" = some (JVal.jstr s) →
      empathyFromPayload (JVal.jobj fields) = Except.error "Empathy must be 1..5") ∧
    (∀ fields, jLookup fields "empathy" = some JVal.jnull →
      empathyFromPayload (JVal.jobj fields) = Except.error "Empathy must be 1..5") ∧
    (∀ fields j, jLookup fields "rationale" = none →
      empathyFromPayload (JVal.jobj fields) = Except.ok j → j.rationale = "") := by
  refine ⟨?_, ?_, ?_, ?_, ?_, ?_, ?_, ?_, ?_⟩
  · intro fields j h
    rw [empathyFromPayload] at h
    rcases hl : jLookup fields "empathy" with - | v
    · rw [hl] at h; simp at h
    · rw [hl] at h
      cases v with
      | jbool b =>
        cases b <;> simp_all <;> rw [← h] <;> constructor <;> norm_num [pyRound, Int.fdiv]
      | jnum x =>
        simp only [Except.ok.injEq] at h
        rw [← h]
        constructor
        · exact le_max_left _ _
        · exact max_le (by norm_num) (min_le_left _ _)
      | jnull => simp at h
      | jstr s => simp at h
      | jarr a => simp at h
      | jobj o => simp at h
  · intro fields h; simp [empathyFromPayload, h]; rfl
  · intro fields h; simp [empathyFromPayload, h]; rfl
  · intro fields x h; simp [empathyFromPayload, h]
  · intro fields h; simp [empathyFromPayload, h]; rfl
  · intro fields h; simp [empathyFromPayload, h]
  · intro fields s h; simp [empathyFromPayload, h]
  · intro fields h; simp [empathyFromPayload, h]
  · intro fields j hr h
    rcases hl : jLookup fields "empathy" with - | v
    · simp [empathyFromPayload, hl] at h
    · cases v <;> simp [empathyFromPayload, hl] at h <;>
        (rw [← h]; simp [judgeRationaleText, hr])

theorem jLookup_jUpdate : ∀ (f : JObj) (k : String) (v : JVal),
    jLookup (jUpdate f k v) k = some v
  | JObj.nil, k, v => by simp [jLookup, jUpdate, objInsert, JObj.toList]
  | JObj.cons k2 v2 t, k, v => by
    by_cases hk : k2 = k
    · simp [jLookup, jUpdate, objInsert, hk, JObj.toList]
    · simp only [jUpdate, objInsert, if_neg hk]
      simp only [jLookup, JObj.toList, List.find?]
      rw [show (k2 == k) = false from beq_eq_false_iff_ne.mpr hk]
      exact jLookup_jUpdate t k v

theorem insightsValue_jUpdate (f : JObj) (c : String) :
    insightsValue (jUpdate f "insights" (JVal.jstr c)) = c := by
  simp [insightsValue, jLookup_jUpdate]

theorem strip_pyOrEmpty_jstr (c : String) :
    pyStripS (pyOrEmptyStr (some (JVal.jstr c))) = pyStripS c := by
  by_cases h : c = ""
  · subst h; rfl
  · simp [pyOrEmptyStr, pyTruthy, h, jvalToPyStr]

theorem insightsTextOf_jUpdate (f : JObj) (c : String) :
    insightsTextOf (jUpdate f "insights" (JVal.jstr c)) = pyStripS c := by
  simp [insightsTextOf, jLookup_jUpdate, strip_pyOrEmpty_jstr]

theorem looks_fallbackInsights : looksIndonesian fallbackInsights = false := by rfl

theorem looks_motivFallback : looksIndonesian motivFallback = false := by rfl

theorem insightsFinalGuard_clean (lang : Option String) (g : JObj) (c : String)
    (hen : normalizeLanguage lang = "en") :
    looksIndonesian (insightsValue (insightsFinalGuard lang (jUpdate g "insights" (JVal.jstr c)))) = false := by
  unfold insightsFinalGuard
  rw [insightsTextOf_jUpdate]
  by_cases h1 : pyStripS c = ""
  · simp [h1, insightsValue_jUpdate, looks_fallbackInsights]
  · by_cases h2 : looksIndonesian (pyStripS c) = true
    · simp [h1, hen, h2, insightsValue_jUpdate, looks_fallbackInsights]
    · rw [Bool.not_eq_true] at h2
      rw [if_neg h1, hen, h2]
      simp only [Bool.and_false, Bool.false_eq_true, if_false]
      rw [insightsValue_jUpdate, ← looksIndonesian_strip]
      exact h2

theorem insightsRetryStep_cases (lang : Option String) (fields1 : JObj) (rg : Option String) :
    (insightsRetryStep lang fields1 rg).1 = fields1 ∨
    ∃ rt rf0, rg = some rt ∧ pyJsonLoads (sliceBraces (pyStripS rt)) = some (JVal.jobj rf0) ∧
      (insightsRetryStep lang fields1 rg).1 = insightsCoerceUpdate rf0 ∧
      insightsTextOf (insightsCoerceUpdate rf0) ≠ "" ∧
      looksIndonesian (insightsTextOf (insightsCoerceUpdate rf0)) = false := by
  unfold insightsRetryStep
  by_cases hc : (decide (normalizeLanguage lang = "en") && decide (insightsTextOf fields1 ≠ "") &&
      looksIndonesian (insightsTextOf fields1)) = true
  · rw [if_pos hc]
    cases rg with
    | none => left; rfl
    | some rt =>
      dsimp only
      rcases hp : pyJsonLoads (sliceBraces (pyStripS rt)) with - | v
      · left; rfl
      · cases v with
        | jobj rf0 =>
          dsimp only
          by_cases hacc : (decide (insightsTextOf (insightsCoerceUpdate rf0) ≠ "") &&
              !looksIndonesian (insightsTextOf (insightsCoerceUpdate rf0))) = true
          · right
            refine ⟨rt, rf0, rfl, hp, ?_, ?_, ?_⟩
            · rw [if_pos hacc]
            · exact of_decide_eq_true (Bool.and_elim_left hacc)
            · simpa using Bool.and_elim_right hacc
          · left; rw [if_neg hacc]
        | jnull => left; rfl
        | jbool b => left; rfl
        | jnum x => left; rfl
        | jstr s => left; rfl
        | jarr a => left; rfl
  · rw [if_neg hc]; left; rfl

theorem insightsRetryStep_count (lang : Option String) (fields1 : JObj) (rg : Option String) :
    (insightsRetryStep lang fields1 rg).2 =
      if (decide (normalizeLanguage lang = "en") && decide (insightsTextOf fields1 ≠ "") &&
          looksIndonesian (insightsTextOf fields1)) = true then 1 else 0 := by
  unfold insightsRetryStep
  by_cases hc : (decide (normalizeLanguage lang = "en") && decide (insightsTextOf fields1 ≠ "") &&
      looksIndonesian (insightsTextOf fields1)) = true
  · rw [if_pos hc, if_pos hc]
    cases rg with
    | none => rfl
    | some rt =>
      dsimp only
      rcases hp : pyJsonLoads (sliceBraces (pyStripS rt)) with - | v
      · rfl
      · cases v with
        | jobj rf0 =>
          dsimp only
          by_cases hacc : (decide (insightsTextOf (insightsCoerceUpdate rf0) ≠ "") &&
              !looksIndonesian (insightsTextOf (insightsCoerceUpdate rf0))) = true
          · rw [if_pos hacc]
          · rw [if_neg hacc]
        | jnull => rfl
        | jbool b => rfl
        | jnum x => rfl
        | jstr s => rfl
        | jarr a => rfl
  · rw [if_neg hc, if_neg hc]

theorem insightsFinalGuard_keep (lang : Option String) (g : JObj) (c : String)
    (hne : pyStripS c ≠ "") (hclean : looksIndonesian (pyStripS c) = false) :
    insightsFinalGuard lang (jUpdate g "insights" (JVal.jstr c)) =
      jUpdate g "insights" (JVal.jstr c) := by
  unfold insightsFinalGuard
  rw [insightsTextOf_jUpdate, if_neg hne, hclean]
  simp

theorem insightsFinalGuard_fallback (lang : Option String) (g : JObj) (c : String)
    (hen : normalizeLanguage lang = "en")
    (hne : pyStripS c ≠ "") (hdirty : looksIndonesian (pyStripS c) = true) :
    insightsFinalGuard lang (jUpdate g "insights" (JVal.jstr c)) =
      jUpdate (jUpdate g "insights" (JVal.jstr c)) "insights" (JVal.jstr fallbackInsights) := by
  unfold insightsFinalGuard
  rw [insightsTextOf_jUpdate, if_neg hne, hen, hdirty]
  simp

theorem insightsCoerceUpdate_text (f : JObj) :
    insightsTextOf (insightsCoerceUpdate f) =
      pyStripS (coerceInsights (jLookup f "insights")) := by
  unfold insightsCoerceUpdate
  exact insightsTextOf_jUpdate _ _

theorem looksIndonesian_empty : looksIndonesian "" = false := by rfl

theorem weeklyMotivation_clean (lang : Option String) (first : String) (rw0 : Option String)
    (hen : normalizeLanguage lang = "en") :
    looksIndonesian (weeklyMotivationModel lang first rw0).1 = false := by
  unfold weeklyMotivationModel
  dsimp only
  generalize (if (decide (normalizeLanguage lang = "en") &&
      looksIndonesian (motivNormalize first)) = true then
    match rw0 with
    | none => (motivNormalize first, 1)
    | some rw =>
      if (decide (motivNormalize rw ≠ "") && !looksIndonesian (motivNormalize rw)) = true then
        (motivNormalize rw, 1)
      else (motivNormalize first, 1)
  else (motivNormalize first, 0)) = step
  obtain ⟨t, cnt⟩ := step
  dsimp only
  by_cases h1 : t = ""
  · simp [h1, looks_motivFallback]
  · by_cases h2 : looksIndonesian t = true
    · simp [h1, hen, h2, looks_motivFallback]
    · rw [Bool.not_eq_true] at h2
      rw [if_neg h1, hen, h2]
      simp [h2]

theorem weeklyMotivation_trip (lang : Option String) (first : String) (rw0 : Option String)
    (hen : normalizeLanguage lang = "en")
    (htrip : looksIndonesian (motivNormalize first) = true) :
    (weeklyMotivationModel lang first rw0).2 = 1 ∧
    ((weeklyMotivationModel lang first rw0).1 = motivFallback ∨
     ∃ rtext, rw0 = some rtext ∧
       (weeklyMotivationModel lang first rw0).1 = motivNormalize rtext ∧
       motivNormalize rtext ≠ "" ∧ looksIndonesian (motivNormalize rtext) = false) := by
  have hne : motivNormalize first ≠ "" := by
    intro he; rw [he, looksIndonesian_empty] at htrip; exact Bool.false_ne_true htrip
  have hcond : (decide (normalizeLanguage lang = "en") &&
      looksIndonesian (motivNormalize first)) = true := by
    rw [hen, htrip]; rfl
  unfold weeklyMotivationModel
  dsimp only
  rw [if_pos hcond]
  cases rw0 with
  | none =>
    dsimp only
    rw [if_neg hne, if_pos hcond]
    simp
  | some rwt =>
    dsimp only
    by_cases hacc : (decide (motivNormalize rwt ≠ "") && !looksIndonesian (motivNormalize rwt)) = true
    · rw [if_pos hacc]
      have hrne : motivNormalize rwt ≠ "" := of_decide_eq_true (Bool.and_elim_left hacc)
      have hrclean : looksIndonesian (motivNormalize rwt) = false := by
        simpa using Bool.and_elim_right hacc
      have hcond2 : (decide (normalizeLanguage lang = "en") &&
          looksIndonesian (motivNormalize rwt)) = false := by
        rw [hrclean]; simp
      dsimp only
      rw [if_neg hrne, hcond2]
      simp only [Bool.false_eq_true, if_false]
      refine ⟨?_, Or.inr ⟨rwt, rfl, ?_, hrne, hrclean⟩⟩ <;> simp

    · rw [if_neg hacc]
      dsimp only
      rw [if_neg hne, if_pos hcond]
      simp

theorem weeklyMotivation_notrip (lang : Option String) (first : String) (rw0 : Option String)
    (h : looksIndonesian (motivNormalize first) = false) :
    (weeklyMotivationModel lang first rw0).2 = 0 := by
  unfold weeklyMotivationModel
  dsimp only
  rw [h]
  simp only [Bool.and_false, Bool.false_eq_true, if_false]
  by_cases h1 : motivNormalize first = ""
  · simp [h1]
  · rw [if_neg h1]
    by_cases h2 : (decide (normalizeLanguage lang = "en") &&
        looksIndonesian (motivNormalize first)) = true
    · rw [if_pos h2]
    · rw [if_neg h2]

theorem weeklyMotivation_noen (lang : Option String) (first : String) (rw0 : Option String)
    (h : normalizeLanguage lang ≠ "en") :
    (weeklyMotivationModel lang first rw0).2 = 0 := by
  have hd : decide (normalizeLanguage lang = "en") = false := decide_eq_false h
  unfold weeklyMotivationModel
  dsimp only
  rw [hd]
  simp only [Bool.false_and, Bool.false_eq_true, if_false]
  by_cases h1 : motivNormalize first = ""
  · simp [h1]
  · rw [if_neg h1]

theorem weeklyMotivation_count_le (lang : Option String) (first : String) (rw0 : Option String) :
    (weeklyMotivationModel lang first rw0).2 ≤ 1 := by
  by_cases hen : normalizeLanguage lang = "en"
  · cases hl : looksIndonesian (motivNormalize first) with
    | false => rw [weeklyMotivation_notrip lang first rw0 hl]; omega
    | true => rw [(weeklyMotivation_trip lang first rw0 hen hl).1]
  · rw [weeklyMotivation_noen lang first rw0 hen]; omega

theorem progressInsightsModel_obj (lang : Option String) (first : String) (rg : Option String)
    (fields0 : JObj) (hp : pyJsonLoads (sliceBraces (pyStripS first)) = some (JVal.jobj fields0)) :
    progressInsightsModel lang first rg =
      Except.ok
        (insightsFinalGuard lang (insightsRetryStep lang (insightsCoerceUpdate fields0) rg).1,
         (insightsRetryStep lang (insightsCoerceUpdate fields0) rg).2) := by
  unfold progressInsightsModel
  rw [hp]

theorem progressInsights_clean (lang : Option String) (first : String) (rg : Option String)
    (fields : JObj) (cnt : Nat) (hen : normalizeLanguage lang = "en")
    (h : progressInsightsModel lang first rg = Except.ok (fields, cnt)) :
    looksIndonesian (insightsValue fields) = false := by
  unfold progressInsightsModel at h
  cases hv : pyJsonLoads (sliceBraces (pyStripS first)) with
  | none => rw [hv] at h; simp at h
  | some v =>
    rw [hv] at h
    cases v with
    | jobj fields0 =>
      simp only [Except.ok.injEq, Prod.mk.injEq] at h
      obtain ⟨hf, -⟩ := h
      subst hf
      rcases insightsRetryStep_cases lang (insightsCoerceUpdate fields0) rg with
        hcase | ⟨rt, rf0, -, -, hcase, -, -⟩
      · rw [hcase]
        unfold insightsCoerceUpdate
        exact insightsFinalGuard_clean lang fields0 _ hen
      · rw [hcase]
        unfold insightsCoerceUpdate
        exact insightsFinalGuard_clean lang rf0 _ hen
    | jnull => simp at h
    | jbool b => simp at h
    | jnum x => simp at h
    | jstr s => simp at h
    | jarr a => simp at h

theorem progressInsights_count_le (lang : Option String) (first : String) (rg : Option String)
    (fields : JObj) (cnt : Nat)
    (h : progressInsightsModel lang first rg = Except.ok (fields, cnt)) : cnt ≤ 1 := by
  unfold progressInsightsModel at h
  cases hv : pyJsonLoads (sliceBraces (pyStripS first)) with
  | none => rw [hv] at h; simp at h
  | some v =>
    rw [hv] at h
    cases v with
    | jobj fields0 =>
      simp only [Except.ok.injEq, Prod.mk.injEq] at h
      obtain ⟨-, hc⟩ := h
      rw [← hc, insightsRetryStep_count]
      split
      · exact le_refl 1
      · exact Nat.zero_le 1
    | jnull => simp at h
    | jbool b => simp at h
    | jnum x => simp at h
    | jstr s => simp at h
    | jarr a => simp at h

theorem progressInsights_trip (lang : Option String) (first : String) (rg : Option String)
    (fields : JObj) (cnt : Nat) (fields0 : JObj) (hen : normalizeLanguage lang = "en")
    (hp : pyJsonLoads (sliceBraces (pyStripS first)) = some (JVal.jobj fields0))
    (htrip : looksIndonesian (insightsTextOf (insightsCoerceUpdate fields0)) = true)
    (h : progressInsightsModel lang first rg = Except.ok (fields, cnt)) :
    cnt = 1 ∧
    (insightsValue fields = fallbackInsights ∨
     ∃ rt rf0, rg = some rt ∧ pyJsonLoads (sliceBraces (pyStripS rt)) = some (JVal.jobj rf0) ∧
       insightsValue fields = coerceInsights (jLookup rf0 "insights") ∧
       looksIndonesian (insightsValue fields) = false) := by
  rw [progressInsightsModel_obj lang first rg fields0 hp] at h
  simp only [Except.ok.injEq, Prod.mk.injEq] at h
  obtain ⟨hf, hc⟩ := h
  have hne : insightsTextOf (insightsCoerceUpdate fields0) ≠ "" := by
    intro he; rw [he, looksIndonesian_empty] at htrip; exact Bool.false_ne_true htrip
  constructor
  · rw [← hc, insightsRetryStep_count, if_pos (by rw [hen, htrip, decide_eq_true hne]; rfl)]
  · rcases insightsRetryStep_cases lang (insightsCoerceUpdate fields0) rg with
      hcase | ⟨rt, rf0, hrg, hpr, hcase, hrne, hrclean⟩
    · left
      rw [← hf, hcase]
      rw [insightsCoerceUpdate_text] at htrip hne
      unfold insightsCoerceUpdate
      rw [insightsFinalGuard_fallback lang fields0 _ hen hne htrip]
      exact insightsValue_jUpdate _ _
    · right
      rw [insightsCoerceUpdate_text] at hrne hrclean
      have hfields : fields = insightsCoerceUpdate rf0 := by
        rw [← hf, hcase]
        unfold insightsCoerceUpdate
        exact insightsFinalGuard_keep lang rf0 _ hrne hrclean
      have hval : insightsValue fields = coerceInsights (jLookup rf0 "insights") := by
        rw [hfields]; unfold insightsCoerceUpdate; exact insightsValue_jUpdate _ _
      refine ⟨rt, rf0, hrg, hpr, hval, ?_⟩
      rw [hval, ← looksIndonesian_strip]
      exact hrclean

theorem claim_C5_language_correction :
    (∀ lang first rg fields cnt, normalizeLanguage lang = "en" →
      progressInsightsModel lang first rg = Except.ok (fields, cnt) →
      looksIndonesian (insightsValue fields) = false) ∧
    (∀ lang first rg fields cnt,
      progressInsightsModel lang first rg = Except.ok (fields, cnt) → cnt ≤ 1) ∧
    (∀ lang first rg fields0,
      pyJsonLoads (sliceBraces (pyStripS first)) = some (JVal.jobj fields0) →
      progressInsightsModel lang first rg =
        Except.ok
          (insightsFinalGuard lang (insightsRetryStep lang (insightsCoerceUpdate fields0) rg).1,
           if (decide (normalizeLanguage lang = "en") &&
               decide (insightsTextOf (insightsCoerceUpdate fields0) ≠ "") &&
               looksIndonesian (insightsTextOf (insightsCoerceUpdate fields0))) = true
           then 1 else 0)) ∧
    (∀ lang first rg fields cnt fields0, normalizeLanguage lang = "en" →
      pyJsonLoads (sliceBraces (pyStripS first)) = some (JVal.jobj fields0) →
      looksIndonesian (insightsTextOf (insightsCoerceUpdate fields0)) = true →
      progressInsightsModel lang first rg = Except.ok (fields, cnt) →
      cnt = 1 ∧
      (insightsValue fields = fallbackInsights ∨
       ∃ rt rf0, rg = some rt ∧
         pyJsonLoads (sliceBraces (pyStripS rt)) = some (JVal.jobj rf0) ∧
         insightsValue fields = coerceInsights (jLookup rf0 "insights") ∧
         looksIndonesian (insightsValue fields) = false)) ∧
    (∀ lang first rw0, normalizeLanguage lang = "en" →
      looksIndonesian (weeklyMotivationModel lang first rw0).1 = false) ∧
    (∀ lang first rw0, (weeklyMotivationModel lang first rw0).2 ≤ 1) ∧
    (∀ lang first rw0, normalizeLanguage lang = "en" →
      looksIndonesian (motivNormalize first) = true →
      (weeklyMotivationModel lang first rw0).2 = 1 ∧
      ((weeklyMotivationModel lang first rw0).1 = motivFallback ∨
       ∃ rtext, rw0 = some rtext ∧
         (weeklyMotivationModel lang first rw0).1 = motivNormalize rtext ∧
         motivNormalize rtext ≠ "" ∧ looksIndonesian (motivNormalize rtext) = false)) ∧
    (∀ lang first rw0, looksIndonesian (motivNormalize first) = false →
      (weeklyMotivationModel lang first rw0).2 = 0) :=
  ⟨fun lang first rg fields cnt hen h =>
      progressInsights_clean lang first rg fields cnt hen h,
   fun lang first rg fields cnt h => progressInsights_count_le lang first rg fields cnt h,
   fun lang first rg fields0 hp => by
      rw [progressInsightsModel_obj lang first rg fields0 hp, insightsRetryStep_count],
   fun lang first rg fields cnt fields0 hen hp htrip h =>
      progressInsights_trip lang first rg fields cnt fields0 hen hp htrip h,
   fun lang first rw0 hen => weeklyMotivation_clean lang first rw0 hen,
   fun lang first rw0 => weeklyMotivation_count_le lang first rw0,
   fun lang first rw0 hen htrip => weeklyMotivation_trip lang first rw0 hen htrip,
   fun lang first rw0 h => weeklyMotivation_notrip lang first rw0 h⟩

/-- Witness for C1 at concrete inputs: with the flag on, threshold 3 and a
first score of 2 exactly one retry is attempted; with the flag off
retry_used is false and one judge call occurs. -/
theorem claim_C1_retry_policy_witness :
    (chatJudgePhase "true" 3 "ok" (some ⟨2, "w"⟩) (some "better") (some ⟨4, "g"⟩)).retryAttempts = 1 ∧
    (chatJudgePhase "false" 3 "ok" (some ⟨4, "g"⟩) none none).retry_used = false ∧
    (chatJudgePhase "false" 3 "ok" (some ⟨4, "g"⟩) none none).judgeAttempts = 1 := by
  refine ⟨?_, ?_, ?_⟩
  · exact (claim_C1_retry_policy "true" 3 "ok" ⟨2, "w"⟩ (some "better") (some ⟨4, "g"⟩)).2.2.1
      (by rfl) rfl rfl
  · exact ((claim_C1_retry_policy "false" 3 "ok" ⟨4, "g"⟩ none none).2.1 (by rfl)).1
  · exact ((claim_C1_retry_policy "false" 3 "ok" ⟨4, "g"⟩ none none).2.1 (by rfl)).2.1

/-- Witness for C2 at concrete inputs: a judge failure still yields a 200
response carrying the cleaned original reply. -/
theorem claim_C2_graceful_degradation_witness :
    (chatEndpointModel "hi" "run" (GenResult.ok "ok <DEAL>walk</DEAL>") none none none "false" 3).1 =
      Except.ok (chatJudgePhase "false" 3 (pyStripS "ok <DEAL>walk</DEAL>") none none none) :=
  claim_C2_graceful_degradation.1 "hi" "run" "ok <DEAL>walk</DEAL>" none none none "false" 3
    (by decide) (by decide) (by decide)

/-- Witness for C3 at concrete inputs with retry_used true. -/
theorem claim_C3_retry_invariants_witness :
    ∃ j jj rr, (some (⟨2, "w"⟩ : Judgment) : Option Judgment) = some j ∧
      (some "b <DEAL>y</DEAL>" : Option String) = some rr ∧
      (some (⟨5, "g"⟩ : Judgment) : Option Judgment) = some jj ∧
      (chatJudgePhase "true" 3 "a" (some ⟨2, "w"⟩) (some "b <DEAL>y</DEAL>")
        (some ⟨5, "g"⟩)).empathy_score = some jj.empathy ∧
      (chatJudgePhase "true" 3 "a" (some ⟨2, "w"⟩) (some "b <DEAL>y</DEAL>")
        (some ⟨5, "g"⟩)).empathy_rationale = strippedOrNone jj.rationale ∧
      (chatJudgePhase "true" 3 "a" (some ⟨2, "w"⟩) (some "b <DEAL>y</DEAL>")
        (some ⟨5, "g"⟩)).initial_empathy_score = some j.empathy ∧
      (chatJudgePhase "true" 3 "a" (some ⟨2, "w"⟩) (some "b <DEAL>y</DEAL>")
        (some ⟨5, "g"⟩)).response = (extractDealMeta rr).1 ∧
      (chatJudgePhase "true" 3 "a" (some ⟨2, "w"⟩) (some "b <DEAL>y</DEAL>")
        (some ⟨5, "g"⟩)).deal_label =
        (if (extractDealMeta rr).2.isSome then (extractDealMeta rr).2
         else (extractDealMeta "a").2) ∧
      (chatJudgePhase "true" 3 "a" (some ⟨2, "w"⟩) (some "b <DEAL>y</DEAL>")
        (some ⟨5, "g"⟩)).deal_made =
        ((extractDealMeta rr).2.isSome || (extractDealMeta "a").2.isSome) :=
  claim_C3_retry_invariants "true" 3 "a" (some ⟨2, "w"⟩) (some "b <DEAL>y</DEAL>")
    (some ⟨5, "g"⟩) (by rfl)

/-- Witness for C4 at a concrete payload: a boolean true empathy field
yields a score of 5. -/
theorem claim_C4_judge_coercion_witness :
    empathyFromPayload (JVal.jobj (JObj.cons "empathy" (JVal.jbool true) JObj.nil)) =
      Except.ok ⟨5, judgeRationaleText (JObj.cons "empathy" (JVal.jbool true) JObj.nil)⟩ :=
  claim_C4_judge_coercion.2.1 (JObj.cons "empathy" (JVal.jbool true) JObj.nil) (by rfl)

/-- Witness for C5 at concrete inputs: an Indonesian weekly-motivation
reply on an en request never reaches the caller and costs exactly one
corrective re-prompt. -/
theorem claim_C5_language_correction_witness :
    looksIndonesian (weeklyMotivationModel (some "en") "Ayo semangat hari ini!" none).1 = false ∧
    (weeklyMotivationModel (some "en") "Ayo semangat hari ini!" none).2 = 1 := by
  constructor
  · exact claim_C5_language_correction.2.2.2.2.1 (some "en") "Ayo semangat hari ini!" none (by rfl)
  · exact (claim_C5_language_correction.2.2.2.2.2.2.1 (some "en") "Ayo semangat hari ini!" none
      (by rfl) (by rfl)).1

/-- Witness for C6 at a concrete tag-free input. -/
theorem claim_C6_deal_extraction_witness :
    extractDealMeta "  no tags here  " = (pyStripS "  no tags here  ", none) :=
  claim_C6_deal_extraction.2.1 "  no tags here  " (by rfl)

/-- Witness for C8 at concrete inputs: a blank message is a 400 before any
generation attempt, and an upstream timeout is a 504. -/
theorem claim_C8_error_mapping_witness :
    chatEndpointModel "   " "run" (GenResult.ok "x") none none none "false" 3 =
      (Except.error (400, "Message cannot be empty"), 0) ∧
    (chatEndpointModel "hi" "run" GenResult.timeoutErr none none none "false" 3).1 =
      Except.error (504, "AI response timeout. Please try again.") := by
  constructor
  · exact claim_C8_error_mapping.1 "   " "run" (GenResult.ok "x") none none none "false" 3 (by rfl)
  · exact (claim_C8_error_mapping.2.2.1 "hi" "run" none none none "false" 3
      (by decide) (by decide)).1

/-- Witness for C9 at concrete inputs: monotone between 3 and 7, saturated
at 12. -/
theorem claim_C9_completion_rate_witness :
    completionRate 3 ≤ completionRate 7 ∧ completionRate 12 = 100 :=
  ⟨claim_C9_completion_rate.2.1 3 7 (by norm_num), claim_C9_completion_rate.2.2.1 12 (by norm_num)⟩

/-- Witness for C10 at a concrete message: a role of "ai" is never counted
by the heuristic. -/
theorem claim_C10_role_asymmetry_witness :
    countsMsg ⟨"ai", "just walk"⟩ = false :=
  claim_C10_role_asymmetry.2.1 ⟨"ai", "just walk"⟩ (Or.inl rfl)
